import Mathlib

/-!
# qeaas_esp32_client: link state machine, connection retry policy and CoAP exchange

A shallow embedding of `mbedtls/src/wifi.c` and `mbedtls/src/main.c`.

Conventions of the embedding
* File-scope C variables become fields of a state record that every function
  receives and returns.
* Calls into Zephyr and libcoap are not part of the repository; what such a
  call returns is an input of the model (an outcome record, or a function of
  the call number for calls made in a loop).
* `printf` calls have no effect on any variable and are left out.
* Loops are functions with a fuel argument returning `Option`; the theorems
  state how much fuel is enough.
-/

namespace Qeaas

/-! ## Machine integers -/

/-- Reduction of a natural number to `uint32_t`. -/
def u32 (n : Nat) : Nat := n % 2 ^ 32

/-- The C conversion `(int)x` of an `unsigned int` value `x < 2^32`. -/
def int_of_unsigned (x : Nat) : Int :=
  if x < 2 ^ 31 then (x : Int) else (x : Int) - 2 ^ 32

/-- The C conversion `(unsigned)r` of an `int` value. -/
def unsigned_of_int (r : Int) : Nat := (r % 2 ^ 32).toNat

/-! ## wifi.c -/

/-- The constant `WIFI_CONNECTION_TIMEOUT_MS` of wifi.c. -/
def WIFI_CONNECTION_TIMEOUT_MS : Int := 10000

/-- The errno value `ETIMEDOUT` (116 in Zephyr's errno.h). -/
def ETIMEDOUT : Int := 116

/-- The errno value `ENODEV` (19 in Zephyr's errno.h). -/
def ENODEV : Int := 19

/-- The file-scope variables of wifi.c: the two used bits of the union
`context` (its six `_unused` bits are never read), the counter `scan_result`
(a `uint32_t`) and the flag `wifi_connected`. -/
structure WifiState where
  connecting : Bool
  disconnecting : Bool
  scan_result : Nat
  wifi_connected : Bool
deriving DecidableEq, Repr

/-- The state given by the static initialisers: everything zero, and
`wifi_connected = false`. -/
def WifiState.startup : WifiState :=
  { connecting := false, disconnecting := false, scan_result := 0, wifi_connected := false }

/-- The management event kinds that `wifi_mgmt_event_handler` switches on;
`other` is the `default:` branch. -/
inductive MgmtEvent where
  | NET_EVENT_WIFI_SCAN_RESULT
  | NET_EVENT_WIFI_SCAN_DONE
  | NET_EVENT_WIFI_CONNECT_RESULT
  | NET_EVENT_WIFI_DISCONNECT_RESULT
  | other
deriving DecidableEq, Repr

/-- The function `handle_wifi_scan_result`: `scan_result++` on a `uint32_t`. -/
def handle_wifi_scan_result (s : WifiState) : WifiState :=
  { s with scan_result := u32 (s.scan_result + 1) }

/-- The function `handle_wifi_scan_done`: both branches only print; then `scan_result = 0`. -/
def handle_wifi_scan_done (s : WifiState) (_status : Int) : WifiState :=
  { s with scan_result := 0 }

/-- The function `handle_wifi_connect_result`: a nonzero status only prints, a zero status
sets `wifi_connected`; then `context.connecting = false`. -/
def handle_wifi_connect_result (s : WifiState) (status : Int) : WifiState :=
  let s := if status != 0 then s else { s with wifi_connected := true }
  { s with connecting := false }

/-- The function `handle_wifi_disconnect_result`: when `context.disconnecting` is set it is
cleared; otherwise the function only prints. -/
def handle_wifi_disconnect_result (s : WifiState) (_status : Int) : WifiState :=
  if s.disconnecting then { s with disconnecting := false } else s

/-- The function `wifi_mgmt_event_handler`: the switch over the event kind. -/
def wifi_mgmt_event_handler (s : WifiState) (mgmt_event : MgmtEvent) (status : Int) : WifiState :=
  match mgmt_event with
  | .NET_EVENT_WIFI_SCAN_RESULT => handle_wifi_scan_result s
  | .NET_EVENT_WIFI_SCAN_DONE => handle_wifi_scan_done s status
  | .NET_EVENT_WIFI_CONNECT_RESULT => handle_wifi_connect_result s status
  | .NET_EVENT_WIFI_DISCONNECT_RESULT => handle_wifi_disconnect_result s status
  | .other => s

/-- The function `wifi_init`: `context.all = 0; scan_result = 0;`, registration of the
callback, `return 0`. -/
def wifi_init (s : WifiState) : WifiState × Int :=
  ({ s with connecting := false, disconnecting := false, scan_result := 0 }, 0)

/-- The function `connect_to_wifi`: `iface` tells whether `net_if_get_default()` is
non-NULL and `net_mgmt_ret` is what the connect request returns. No file-scope
variable is written. -/
def connect_to_wifi (s : WifiState) (iface : Bool) (net_mgmt_ret : Int) : WifiState × Int :=
  if !iface then (s, -ENODEV)
  else
    let ret := net_mgmt_ret
    if ret < 0 then (s, ret) else (s, ret)

/-- The function `wifi_disconnect`: issues the request and prints; no file-scope variable is
written. -/
def wifi_disconnect (s : WifiState) (_net_mgmt_ret : Int) : WifiState := s

/-- The loop of `wait_for_wifi_connection`. `obs k` is the value of
`wifi_connected` read after `k` sleeps; the result is the return value and the
number of `k_sleep` calls made. -/
def wait_loop (obs : Nat → Bool) (max_timeout_count : Int) :
    Nat → Int → Nat → Option (Int × Nat)
  | 0, _, _ => none
  | fuel + 1, timeout_count, sleeps =>
    if !(obs sleeps) then
      let sleeps := sleeps + 1
      let timeout_count := timeout_count + 1
      if timeout_count >= max_timeout_count then some (-ETIMEDOUT, sleeps)
      else wait_loop obs max_timeout_count fuel timeout_count sleeps
    else some (0, sleeps)

/-- The function `wait_for_wifi_connection`: `timeout_count = 0`,
`max_timeout_count = WIFI_CONNECTION_TIMEOUT_MS / 100`, then the loop. -/
def wait_for_wifi_connection (obs : Nat → Bool) (fuel : Nat) : Option (Int × Nat) :=
  wait_loop obs (WIFI_CONNECTION_TIMEOUT_MS / 100) fuel 0 0

/-- One step of the environment of wifi.c: a call of one of its functions or
the delivery of a management event. -/
inductive WifiOp where
  | init
  | connect (iface : Bool) (net_mgmt_ret : Int)
  | disconnect (net_mgmt_ret : Int)
  | event (mgmt_event : MgmtEvent) (status : Int)

/-- The state after one step. -/
def WifiOp.step (s : WifiState) : WifiOp → WifiState
  | .init => (wifi_init s).1
  | .connect iface r => (connect_to_wifi s iface r).1
  | .disconnect r => wifi_disconnect s r
  | .event e status => wifi_mgmt_event_handler s e status

/-- The state after a finite sequence of steps. -/
def run_ops (s : WifiState) (ops : List WifiOp) : WifiState :=
  ops.foldl WifiOp.step s

/-- The state after a sequence of ConnectResult events with the given status
codes. -/
def connect_results (s : WifiState) (statuses : List Int) : WifiState :=
  statuses.foldl (fun s status => wifi_mgmt_event_handler s .NET_EVENT_WIFI_CONNECT_RESULT status) s

/-! ## main.c: entropy tests -/

/-- The static `stats` of main.c (four `uint32_t` counters). -/
structure Stats where
  tests_passed : Nat
  tests_failed : Nat
  total_bytes_extracted : Nat
  total_quantum_bytes_added : Nat
deriving DecidableEq, Repr

/-- The file-scope variables of main.c, and the number of calls made so far to
each of the two device functions. -/
structure MainState where
  stats : Stats
  quantum_pass : Bool
  continuous_pass : Bool
  boundary_pass : Bool
  coap_have_response : Int
  gets : Nat
  adds : Nat
deriving DecidableEq, Repr

/-- The state given by the static initialisers of main.c. -/
def MainState.startup : MainState :=
  { stats := { tests_passed := 0, tests_failed := 0, total_bytes_extracted := 0,
               total_quantum_bytes_added := 0 },
    quantum_pass := false, continuous_pass := false, boundary_pass := false,
    coap_have_response := 0, gets := 0, adds := 0 }

/-- The statement `stats.total_bytes_extracted += n`. -/
def add_bytes (st : MainState) (n : Nat) : MainState :=
  { st with stats := { st.stats with total_bytes_extracted := u32 (st.stats.total_bytes_extracted + n) } }

/-- The statement `stats.total_quantum_bytes_added += n`. -/
def add_quantum (st : MainState) (n : Nat) : MainState :=
  { st with stats := { st.stats with
      total_quantum_bytes_added := u32 (st.stats.total_quantum_bytes_added + n) } }

/-- The statement `stats.tests_passed++`. -/
def pass_test (st : MainState) : MainState :=
  { st with stats := { st.stats with tests_passed := u32 (st.stats.tests_passed + 1) } }

/-- The statement `stats.tests_failed++`. -/
def fail_test (st : MainState) : MainState :=
  { st with stats := { st.stats with tests_failed := u32 (st.stats.tests_failed + 1) } }

/-- The constant `COAP_INVALID_MID` of libcoap. -/
def COAP_INVALID_MID : Int := -1

/-- What the libcoap calls of one `run_coap_test` call return. A `Bool` field
tells whether the returned pointer is non-NULL. `optlist_set` tells whether
`optlist` is non-NULL after `coap_uri_into_options`. `io_process k` is the
return value of the `k`-th `coap_io_process` call of the wait loop and
`response k` tells whether `coap_response_handler` is invoked during it. -/
structure CoapEnv where
  split_uri_ret : Int
  host_length : Nat
  inet_pton_ret : Int
  new_context : Bool
  new_client_session : Bool
  pdu_init : Bool
  uri_into_options_ret : Int
  optlist_set : Bool
  add_optlist_pdu_ret : Int
  send_mid : Int
  io_process : Nat → Int
  response : Nat → Bool

/-- The libcoap calls that `run_coap_test` makes. -/
inductive CoapCall where
  | coap_startup
  | coap_split_uri
  | coap_new_context
  | coap_context_set_block_mode
  | coap_new_client_session
  | coap_register_response_handler
  | coap_pdu_init
  | coap_uri_into_options
  | coap_add_optlist_pdu
  | coap_send
  | coap_io_process
  | coap_delete_optlist
  | coap_session_release
  | coap_free_context
  | coap_cleanup
deriving DecidableEq, Repr

/-- What one `run_coap_test` call did: the returned `result`, the libcoap calls
in order, the three local pointers at `finish:` (non-NULL or not), the number
of `coap_io_process` calls, the final `wait_ms` when the wait loop was reached,
and the file-scope state afterwards. -/
structure CoapRun where
  result : Int
  calls : List CoapCall
  ctx : Bool
  session : Bool
  optlist : Bool
  pumps : Nat
  wait_ms : Option Nat
  st : MainState

/-- The function `coap_response_handler`: sets `coap_have_response = 1` (the rest prints). -/
def coap_response_handler (_coap_have_response : Int) : Int := 1

/-- The function `setup_coap_address`: 0 when `inet_pton` returns a value `<= 0`, else 1. -/
def setup_coap_address (inet_pton_ret : Int) : Int :=
  if inet_pton_ret <= 0 then 0 else 1

/-- The wait loop of `run_coap_test`:
`while (!coap_have_response && wait_ms > 0) { res = coap_io_process(ctx, 500);
if (res >= 0) wait_ms -= (res < (int)wait_ms) ? res : wait_ms; }`.
The arguments after the fuel are `coap_have_response`, `wait_ms` (an
`unsigned int`) and the number of pump calls made so far; the result is their
final value. -/
def coap_wait_loop (io_process : Nat → Int) (response : Nat → Bool) :
    Nat → Int → Nat → Nat → Option (Int × Nat × Nat)
  | 0, _, _, _ => none
  | fuel + 1, coap_have_response, wait_ms, pumps =>
    if coap_have_response = 0 ∧ wait_ms > 0 then
      let res := io_process pumps
      let coap_have_response :=
        if response pumps then coap_response_handler coap_have_response else coap_have_response
      let wait_ms :=
        if res >= 0 then
          u32 (wait_ms + 2 ^ 32 -
            (if res < int_of_unsigned wait_ms then unsigned_of_int res else wait_ms))
        else wait_ms
      coap_wait_loop io_process response fuel coap_have_response wait_ms (pumps + 1)
    else some (coap_have_response, wait_ms, pumps)

/-- The code at the label `finish:`, appended to the calls made so far. -/
def coap_finish (calls : List CoapCall) (optlist session ctx : Bool) : List CoapCall :=
  calls ++ (if optlist then [.coap_delete_optlist] else [])
    ++ (if session then [.coap_session_release] else [])
    ++ (if ctx then [.coap_free_context] else [])
    ++ [.coap_cleanup]

/-- A return through `finish:` before the wait loop was reached. -/
def coap_early (st : MainState) (result : Int) (calls : List CoapCall)
    (optlist session ctx : Bool) : CoapRun :=
  { result := result, calls := coap_finish calls optlist session ctx, ctx := ctx,
    session := session, optlist := optlist, pumps := 0, wait_ms := none, st := st }

/-- The function `run_coap_test`. The locals `ctx`, `session`, `optlist` start NULL and
`result` starts at -1; every `goto finish` is a `coap_early`. -/
def run_coap_test (env : CoapEnv) (st : MainState) (fuel : Nat) : Option CoapRun :=
  let result : Int := -1
  let calls : List CoapCall := [.coap_startup, .coap_split_uri]
  if env.split_uri_ret != 0 then some (coap_early st result calls false false false)
  else if !(decide (env.host_length < 64)) then
    some (coap_early st result calls false false false)
  else if setup_coap_address env.inet_pton_ret == 0 then
    some (coap_early st result calls false false false)
  else
    let calls := calls ++ [.coap_new_context]
    let ctx := env.new_context
    if !ctx then some (coap_early st result calls false false ctx)
    else
      let calls := calls ++ [.coap_context_set_block_mode, .coap_new_client_session]
      let session := env.new_client_session
      if !session then some (coap_early st result calls false session ctx)
      else
        let calls := calls ++ [.coap_register_response_handler, .coap_pdu_init]
        if !env.pdu_init then some (coap_early st result calls false session ctx)
        else
          let calls := calls ++ [.coap_uri_into_options]
          let optlist := env.optlist_set
          if env.uri_into_options_ret != 0 then
            some (coap_early st result calls optlist session ctx)
          else
            let calls := if optlist then calls ++ [.coap_add_optlist_pdu] else calls
            if optlist && env.add_optlist_pdu_ret == 0 then
              some (coap_early st result calls optlist session ctx)
            else
              let calls := calls ++ [.coap_send]
              if env.send_mid == COAP_INVALID_MID then
                some (coap_early st result calls optlist session ctx)
              else
                match coap_wait_loop env.io_process env.response fuel
                    st.coap_have_response 5000 0 with
                | none => none
                | some (coap_have_response, wait_ms, pumps) =>
                  let st := { st with coap_have_response := coap_have_response }
                  let result : Int := if coap_have_response != 0 then 0 else -1
                  let calls := calls ++ List.replicate pumps CoapCall.coap_io_process
                  some { result := result, calls := coap_finish calls optlist session ctx,
                         ctx := ctx, session := session, optlist := optlist, pumps := pumps,
                         wait_ms := some wait_ms, st := st }

/-! ## main.c: `main` -/

/-- The calls of `main` that the claims are about. The argument of
`connect_to_wifi` and `wait_for_wifi_connection` is the value of the loop
variable `i`. -/
inductive MainCall where
  | k_msleep (ms : Nat)
  | wifi_init
  | connect_to_wifi (i : Nat)
  | wait_for_wifi_connection (i : Nat)
  | wifi_disconnect
  | k_sleep (ms : Nat)
  | run_coap_test
deriving DecidableEq, Repr

/-- The loop `for (int i = 1; i <= 3 && !wifi_ok; i++)` of `main`.
`connect_ret i` and `wait_ret i` are what `connect_to_wifi()` and
`wait_for_wifi_connection()` return in the iteration with loop variable `i`.
The arguments after the fuel are `i`, `wifi_ok` and the calls made so far. -/
def link_loop (connect_ret wait_ret : Nat → Int) :
    Nat → Nat → Int → List MainCall → Option (Int × List MainCall)
  | 0, _, _, _ => none
  | fuel + 1, i, wifi_ok, calls =>
    if i ≤ 3 ∧ wifi_ok = 0 then
      let calls := calls ++ [.connect_to_wifi i]
      if connect_ret i >= 0 then
        let calls := calls ++ [.wait_for_wifi_connection i]
        if wait_ret i >= 0 then link_loop connect_ret wait_ret fuel (i + 1) 1 calls
        else
          link_loop connect_ret wait_ret fuel (i + 1) wifi_ok
            (calls ++ [.wifi_disconnect, .k_sleep 2000])
      else
        link_loop connect_ret wait_ret fuel (i + 1) wifi_ok
          (calls ++ [.wifi_disconnect, .k_sleep 2000])
    else some (wifi_ok, calls)

/-- An attempt succeeds when both `connect_to_wifi` and
`wait_for_wifi_connection` return a value `>= 0`. -/
def attempt_succeeds (connect_ret wait_ret : Nat → Int) (i : Nat) : Bool :=
  decide (connect_ret i ≥ 0) && decide (wait_ret i ≥ 0)

/-- The number of attempts of the policy: the index of the first successful
attempt when that is at most 3, and 3 otherwise. -/
def attempts_made (connect_ret wait_ret : Nat → Int) : Nat :=
  if attempt_succeeds connect_ret wait_ret 1 then 1
  else if attempt_succeeds connect_ret wait_ret 2 then 2
  else 3

/-- The calls of attempt `i` under the policy: the connect request, the wait
only when the request was accepted, and after a failed attempt one disconnect
request followed by the 2000 ms backoff. -/
def attempt_calls (connect_ret wait_ret : Nat → Int) (i : Nat) : List MainCall :=
  [MainCall.connect_to_wifi i]
    ++ (if connect_ret i ≥ 0 then [MainCall.wait_for_wifi_connection i] else [])
    ++ (if attempt_succeeds connect_ret wait_ret i then []
        else [MainCall.wifi_disconnect, MainCall.k_sleep 2000])

/-- The calls of attempts `1..n` under the policy. -/
def policy_calls (connect_ret wait_ret : Nat → Int) : Nat → List MainCall
  | 0 => []
  | n + 1 => policy_calls connect_ret wait_ret n ++ attempt_calls connect_ret wait_ret (n + 1)

/-- The number of failed attempts among `1..n`. -/
def failed_attempts (connect_ret wait_ret : Nat → Int) : Nat → Nat
  | 0 => 0
  | n + 1 => failed_attempts connect_ret wait_ret n
      + (if attempt_succeeds connect_ret wait_ret (n + 1) then 0 else 1)

/-- Whether a call is a connect request. -/
def MainCall.is_connect : MainCall → Bool
  | .connect_to_wifi _ => true
  | _ => false


/-! ## Auxiliary notions for the exchange -/

/-- The sum of the elapsed times reported by the first `n` pump calls. -/
def elapsed_sum (io_process : Nat → Int) : Nat → Int
  | 0 => 0
  | n + 1 => elapsed_sum io_process n + io_process n

/-- Every step of `run_coap_test` before the wait loop succeeds: none of the
`goto finish` conditions of lines 246 to 288 holds. -/
def CoapEnv.setup_ok (env : CoapEnv) : Bool :=
  env.split_uri_ret == 0 && decide (env.host_length < 64)
    && setup_coap_address env.inet_pton_ret != 0
    && env.new_context && env.new_client_session && env.pdu_init
    && env.uri_into_options_ret == 0
    && !(env.optlist_set && env.add_optlist_pdu_ret == 0)
    && env.send_mid != COAP_INVALID_MID

/-- The libcoap calls of a `run_coap_test` call that reaches the wait loop, up
to and including `coap_send`. -/
def setup_calls (env : CoapEnv) : List CoapCall :=
  [.coap_startup, .coap_split_uri, .coap_new_context, .coap_context_set_block_mode,
   .coap_new_client_session, .coap_register_response_handler, .coap_pdu_init,
   .coap_uri_into_options]
    ++ (if env.optlist_set then [.coap_add_optlist_pdu] else []) ++ [.coap_send]

/-- An exchange whose setup succeeds, whose pump reports `elapsed` ms on every
call, and whose response callback fires during the pump calls selected by
`response`. -/
def CoapEnv.exchange (elapsed : Int) (response : Nat → Bool) : CoapEnv :=
  { split_uri_ret := 0, host_length := 14, inet_pton_ret := 1, new_context := true,
    new_client_session := true, pdu_init := true, uri_into_options_ret := 0,
    optlist_set := true, add_optlist_pdu_ret := 1, send_mid := 1,
    io_process := fun _ => elapsed, response := response }

/-- The three release calls made at `finish:`. -/
def CoapCall.is_release : CoapCall → Bool
  | .coap_delete_optlist => true
  | .coap_session_release => true
  | .coap_free_context => true
  | _ => false

/-- A context was acquired by the given calls: `coap_new_context` was called
and returned a non-NULL pointer. -/
def acquired_ctx (env : CoapEnv) (calls : List CoapCall) : Bool :=
  decide (CoapCall.coap_new_context ∈ calls) && env.new_context

/-- A session was acquired by the given calls: `coap_new_client_session` was
called and returned a non-NULL pointer. -/
def acquired_session (env : CoapEnv) (calls : List CoapCall) : Bool :=
  decide (CoapCall.coap_new_client_session ∈ calls) && env.new_client_session

/-- An options list was acquired by the given calls: `coap_uri_into_options`
was called and left `optlist` non-NULL. -/
def acquired_optlist (env : CoapEnv) (calls : List CoapCall) : Bool :=
  decide (CoapCall.coap_uri_into_options ∈ calls) && env.optlist_set

/-- The release sequence the specification asks for after the given calls: the
options list, the session, the context, each only when it was acquired. -/
def expected_releases (env : CoapEnv) (calls : List CoapCall) : List CoapCall :=
  (if acquired_optlist env calls then [CoapCall.coap_delete_optlist] else [])
    ++ (if acquired_session env calls then [CoapCall.coap_session_release] else [])
    ++ (if acquired_ctx env calls then [CoapCall.coap_free_context] else [])

/-! ## The entropy flags as functions of the device -/

/-- The part of the state of main.c that the entropy tests can influence each
other through: the call counters and the three flags. -/
def MainState.view (st : MainState) : Nat × Nat × Bool × Bool × Bool × Int :=
  (st.gets, st.adds, st.quantum_pass, st.continuous_pass, st.boundary_pass,
    st.coap_have_response)

/-- The budget consumed by the first `n` pump calls: a return value `r >= 0`
counts `r`, a negative return value counts nothing. -/
def consumed_sum (io_process : Nat → Int) : Nat → Nat
  | 0 => 0
  | n + 1 => consumed_sum io_process n + (io_process n).toNat

/-- An exchange whose setup succeeds and whose destination never responds,
with the pump returning -1 on its first three calls, 0 on the next two and
1000 from then on. -/
def CoapEnv.stuttering : CoapEnv :=
  { CoapEnv.exchange 0 (fun _ => false) with
    io_process := fun k => if k < 3 then -1 else if k < 5 then 0 else 1000 }

/-! ## Theorems: the link state machine of wifi.c -/

theorem connect_result_connected (s : WifiState) (status : Int) :
    (handle_wifi_connect_result s status).wifi_connected
      = (decide (status = 0) || s.wifi_connected) := by
  unfold handle_wifi_connect_result
  by_cases h : status = 0 <;> simp [h]

theorem connect_results_connecting (statuses : List Int) (s : WifiState)
    (hne : statuses ≠ []) : (connect_results s statuses).connecting = false := by
  induction statuses using List.reverseRecOn with
  | nil => exact absurd rfl hne
  | append_singleton xs x _ =>
    simp [connect_results, List.foldl_append, wifi_mgmt_event_handler,
      handle_wifi_connect_result]

theorem connect_results_not_connected (statuses : List Int) (s : WifiState)
    (hs : s.wifi_connected = false) (hall : ∀ x ∈ statuses, x ≠ 0) :
    (connect_results s statuses).wifi_connected = false := by
  induction statuses generalizing s with
  | nil => simpa [connect_results] using hs
  | cons x xs ih =>
    have hx : x ≠ 0 := hall x (by simp)
    have hstep : (wifi_mgmt_event_handler s .NET_EVENT_WIFI_CONNECT_RESULT x).wifi_connected
        = false := by
      simp [wifi_mgmt_event_handler, connect_result_connected, hx, hs]
    have := ih _ hstep (fun y hy => hall y (by simp [hy]))
    simpa [connect_results] using this

/-- C1: handling a ConnectResult event clears `connecting`, sets `connected`
exactly when the status is 0 and otherwise keeps it, and leaves
`disconnecting` and the scan tally alone; hence from `connected = false` a
sequence of ConnectResult events that all carry a nonzero status keeps
`connected = false`, and `connecting` is false once at least one of them has
been handled. -/
theorem connect_result_event (s : WifiState) (status : Int) (statuses : List Int) :
    (wifi_mgmt_event_handler s .NET_EVENT_WIFI_CONNECT_RESULT status).connecting = false
    ∧ (status = 0 →
        (wifi_mgmt_event_handler s .NET_EVENT_WIFI_CONNECT_RESULT status).wifi_connected = true)
    ∧ (status ≠ 0 →
        (wifi_mgmt_event_handler s .NET_EVENT_WIFI_CONNECT_RESULT status).wifi_connected
          = s.wifi_connected)
    ∧ (wifi_mgmt_event_handler s .NET_EVENT_WIFI_CONNECT_RESULT status).disconnecting
        = s.disconnecting
    ∧ (wifi_mgmt_event_handler s .NET_EVENT_WIFI_CONNECT_RESULT status).scan_result
        = s.scan_result
    ∧ (s.wifi_connected = false → (∀ x ∈ statuses, x ≠ 0) →
        (connect_results s statuses).wifi_connected = false
        ∧ (statuses ≠ [] → (connect_results s statuses).connecting = false)) := by
  refine ⟨?_, ?_, ?_, ?_, ?_, ?_⟩
  · simp [wifi_mgmt_event_handler, handle_wifi_connect_result]
  · intro h
    simp [wifi_mgmt_event_handler, connect_result_connected, h]
  · intro h
    simp [wifi_mgmt_event_handler, connect_result_connected, h]
  · unfold wifi_mgmt_event_handler handle_wifi_connect_result
    by_cases h : status = 0 <;> simp [h]
  · unfold wifi_mgmt_event_handler handle_wifi_connect_result
    by_cases h : status = 0 <;> simp [h]
  · intro hs hall
    exact ⟨connect_results_not_connected statuses s hs hall,
      fun hne => connect_results_connecting statuses s hne⟩

/-- Witness for C1: from a state that is connecting and not connected, the
failed ConnectResult events with status -1 and 7 leave `connected = false` and
`connecting = false`. -/
theorem connect_result_event_witness :
    (connect_results ⟨true, true, 5, false⟩ [-1, 7]).wifi_connected = false
    ∧ (connect_results ⟨true, true, 5, false⟩ [-1, 7]).connecting = false :=
  have h := (connect_result_event ⟨true, true, 5, false⟩ 3 [-1, 7]).2.2.2.2.2 rfl (by decide)
  ⟨h.1, h.2 (by decide)⟩


/-- C7 as stated fails: with `disconnecting = false` and `connected = true`, a
DisconnectResult event leaves `connected = true`. -/
theorem disconnect_result_unsolicited_counterexample :
    ¬ (∀ (s : WifiState) (status : Int), s.disconnecting = false →
        (wifi_mgmt_event_handler s .NET_EVENT_WIFI_DISCONNECT_RESULT status).wifi_connected
          = false) := by
  intro h
  have := h ⟨false, false, 0, true⟩ 0 rfl
  simp [wifi_mgmt_event_handler, handle_wifi_disconnect_result] at this

/-- C7 (amended): when `disconnecting` is false, a DisconnectResult event
changes no variable, whatever its status; `connected` keeps its value. -/
theorem disconnect_result_unsolicited (s : WifiState) (status : Int)
    (h : s.disconnecting = false) :
    wifi_mgmt_event_handler s .NET_EVENT_WIFI_DISCONNECT_RESULT status = s := by
  simp [wifi_mgmt_event_handler, handle_wifi_disconnect_result, h]

/-- Witness for C7 (amended): a connected link with no disconnect requested. -/
theorem disconnect_result_unsolicited_witness :
    wifi_mgmt_event_handler ⟨false, false, 2, true⟩ .NET_EVENT_WIFI_DISCONNECT_RESULT 0
      = ⟨false, false, 2, true⟩ :=
  disconnect_result_unsolicited ⟨false, false, 2, true⟩ 0 rfl

/-- C8 as stated fails: `wifi_init` called with `connected = true` returns with
`connected = true`. -/
theorem wifi_init_all_false_counterexample :
    ¬ (∀ s : WifiState, (wifi_init s).1.connecting = false
        ∧ (wifi_init s).1.disconnecting = false ∧ (wifi_init s).1.wifi_connected = false
        ∧ (wifi_init s).1.scan_result = 0) := by
  intro h
  have := (h ⟨true, true, 9, true⟩).2.2.1
  simp [wifi_init] at this

/-- C8 (amended): after `wifi_init`, `connecting` and `disconnecting` are false
and the scan tally is 0, `connected` has the value it had before, and the
function returns 0; called in the startup state it gives the all-false state. -/
theorem wifi_init_resets (s : WifiState) :
    (wifi_init s).1 = { connecting := false, disconnecting := false, scan_result := 0,
                        wifi_connected := s.wifi_connected }
    ∧ (wifi_init s).2 = 0
    ∧ (wifi_init WifiState.startup).1 = WifiState.startup := by
  simp [wifi_init, WifiState.startup]

theorem step_connecting (s : WifiState) (op : WifiOp) (h : s.connecting = false) :
    (WifiOp.step s op).connecting = false := by
  cases op with
  | init => simp [WifiOp.step, wifi_init]
  | connect iface r =>
    simp only [WifiOp.step, connect_to_wifi]
    split <;> [exact h; (split <;> exact h)]
  | disconnect r => simpa [WifiOp.step, wifi_disconnect] using h
  | event e status =>
    cases e <;>
      simp [WifiOp.step, wifi_mgmt_event_handler, handle_wifi_scan_result,
        handle_wifi_scan_done, handle_wifi_connect_result, handle_wifi_disconnect_result, h]
    split <;> simp [h]

theorem run_ops_connecting (ops : List WifiOp) (s : WifiState) (h : s.connecting = false) :
    (run_ops s ops).connecting = false := by
  induction ops generalizing s with
  | nil => simpa [run_ops] using h
  | cons op ops ih =>
    have := ih (WifiOp.step s op) (step_connecting s op h)
    simpa [run_ops] using this

/-- C9: in every state reached from the startup state by calls of `wifi_init`,
`connect_to_wifi`, `wifi_disconnect` and management events of any kind and
status, `connecting` and `connected` are not both true (no step ever sets
`connecting`). -/
theorem connecting_connected_exclusive (ops : List WifiOp) :
    ¬ ((run_ops WifiState.startup ops).connecting = true
        ∧ (run_ops WifiState.startup ops).wifi_connected = true) := by
  intro h
  have := run_ops_connecting ops WifiState.startup rfl
  rw [this] at h
  exact Bool.noConfusion h.1


/-! ## Theorems: `wait_for_wifi_connection` -/

theorem max_timeout_count_eq : WIFI_CONNECTION_TIMEOUT_MS / 100 = 100 := by
  norm_num [WIFI_CONNECTION_TIMEOUT_MS]

theorem wait_loop_found (obs : Nat → Bool) (d : Nat) :
    ∀ c fuel : Nat, (∀ j, c ≤ j → j < c + d → obs j = false) → obs (c + d) = true →
      c + d < 100 → d < fuel →
      wait_loop obs 100 fuel (c : Int) c = some (0, c + d) := by
  induction d with
  | zero =>
    intro c fuel _ hobs _ hfuel
    obtain ⟨f, rfl⟩ : ∃ f, fuel = f + 1 := ⟨fuel - 1, by omega⟩
    have hc : obs c = true := by simpa using hobs
    simp [wait_loop, hc]
  | succ d ih =>
    intro c fuel hfalse hobs hlt hfuel
    obtain ⟨f, rfl⟩ : ∃ f, fuel = f + 1 := ⟨fuel - 1, by omega⟩
    have hc : obs c = false := hfalse c (le_refl c) (by omega)
    have hnot : ¬ ((c : Int) + 1 ≥ 100) := by omega
    have hrec := ih (c + 1) f (fun j h1 h2 => hfalse j (by omega) (by omega))
      (by rw [← hobs]; congr 1; omega) (by omega) (by omega)
    have hcast : ((c + 1 : Nat) : Int) = (c : Int) + 1 := by push_cast; rfl
    rw [hcast] at hrec
    simp only [wait_loop, hc, Bool.not_false, if_true, hnot, if_false]
    rw [hrec]
    congr 2
    omega

theorem wait_loop_timeout (obs : Nat → Bool) (d : Nat) :
    ∀ c fuel : Nat, c + d = 99 → (∀ j, c ≤ j → j < 100 → obs j = false) → d < fuel →
      wait_loop obs 100 fuel (c : Int) c = some (-ETIMEDOUT, 100) := by
  induction d with
  | zero =>
    intro c fuel hc hfalse hfuel
    obtain ⟨f, rfl⟩ : ∃ f, fuel = f + 1 := ⟨fuel - 1, by omega⟩
    have hc99 : c = 99 := by omega
    subst hc99
    have h99 : obs 99 = false := hfalse 99 (le_refl _) (by omega)
    simp [wait_loop, h99]
  | succ d ih =>
    intro c fuel hc hfalse hfuel
    obtain ⟨f, rfl⟩ : ∃ f, fuel = f + 1 := ⟨fuel - 1, by omega⟩
    have hobs : obs c = false := hfalse c (le_refl c) (by omega)
    have hnot : ¬ ((c : Int) + 1 ≥ 100) := by omega
    have hrec := ih (c + 1) f (by omega) (fun j h1 h2 => hfalse j (by omega) h2) (by omega)
    have hcast : ((c + 1 : Nat) : Int) = (c : Int) + 1 := by push_cast; rfl
    rw [hcast] at hrec
    simp only [wait_loop, hobs, Bool.not_false, if_true, hnot, if_false]
    exact hrec

/-- C2 as stated fails at the boundary `k = 100`: when the flag is first seen
set after the 100th sleep, the function has already returned `-ETIMEDOUT`. -/
theorem wait_for_wifi_connection_counterexample :
    (fun k => decide (100 ≤ k)) 100 = true
    ∧ (∀ j, j < 100 → (fun k => decide (100 ≤ k)) j = false)
    ∧ wait_for_wifi_connection (fun k => decide (100 ≤ k)) 100 = some (-ETIMEDOUT, 100)
    ∧ wait_for_wifi_connection (fun k => decide (100 ≤ k)) 100 ≠ some (0, 100) := by
  have hf : ∀ j, j < 100 → (fun k => decide (100 ≤ k)) j = false := by
    intro j hj
    simp
    omega
  have hrun : wait_for_wifi_connection (fun k => decide (100 ≤ k)) 100
      = some (-ETIMEDOUT, 100) := by
    unfold wait_for_wifi_connection
    rw [max_timeout_count_eq]
    exact wait_loop_timeout _ 99 0 100 (by omega) (fun j _ h => hf j h) (by omega)
  refine ⟨by simp, hf, hrun, ?_⟩
  rw [hrun]
  simp [ETIMEDOUT]

/-- C2 (amended): with enough fuel for the 100 iterations, if the flag is set
after `k0 < 100` sleeps and not earlier, `wait_for_wifi_connection` returns 0
after exactly `k0` sleeps; if the flag is clear after each of `0..99` sleeps it
returns `-ETIMEDOUT` after exactly 100 sleeps, whatever the flag is after the
100th. -/
theorem wait_for_wifi_connection_budget (obs : Nat → Bool) (fuel : Nat) (hfuel : 100 ≤ fuel) :
    (∀ k0, k0 < 100 → obs k0 = true → (∀ j, j < k0 → obs j = false) →
      wait_for_wifi_connection obs fuel = some (0, k0))
    ∧ ((∀ k, k < 100 → obs k = false) →
      wait_for_wifi_connection obs fuel = some (-ETIMEDOUT, 100)) := by
  constructor
  · intro k0 hk hobs hfalse
    unfold wait_for_wifi_connection
    rw [max_timeout_count_eq]
    have := wait_loop_found obs k0 0 fuel (fun j _ h => hfalse j (by omega))
      (by simpa using hobs) (by omega) (by omega)
    simpa using this
  · intro hfalse
    unfold wait_for_wifi_connection
    rw [max_timeout_count_eq]
    exact wait_loop_timeout obs 99 0 fuel (by omega) (fun j _ h => hfalse j h) (by omega)

/-- Witness for C2 (amended): a flag set after the third sleep gives a return
of 0 after 3 sleeps, and a flag that is never set gives `-ETIMEDOUT` after 100
sleeps. -/
theorem wait_for_wifi_connection_budget_witness :
    wait_for_wifi_connection (fun k => decide (3 ≤ k)) 100 = some (0, 3)
    ∧ wait_for_wifi_connection (fun _ => false) 100 = some (-ETIMEDOUT, 100) :=
  ⟨(wait_for_wifi_connection_budget (fun k => decide (3 ≤ k)) 100 (le_refl 100)).1 3
      (by decide) (by decide) (by decide),
   (wait_for_wifi_connection_budget (fun _ => false) 100 (le_refl 100)).2 (fun _ _ => rfl)⟩


/-! ## Theorems: the link-establishment loop of `main` -/

theorem link_loop_done (connect_ret wait_ret : Nat → Int) (fuel i : Nat)
    (calls : List MainCall) :
    link_loop connect_ret wait_ret (fuel + 1) i 1 calls = some (1, calls) := by
  simp [link_loop]

theorem link_loop_exhausted (connect_ret wait_ret : Nat → Int) (fuel i : Nat)
    (calls : List MainCall) (hi : 3 < i) :
    link_loop connect_ret wait_ret (fuel + 1) i 0 calls = some (0, calls) := by
  have : ¬ i ≤ 3 := by omega
  simp [link_loop, this]

theorem link_loop_attempt (connect_ret wait_ret : Nat → Int) (fuel i : Nat)
    (calls : List MainCall) (hi : i ≤ 3) :
    link_loop connect_ret wait_ret (fuel + 1) i 0 calls
      = link_loop connect_ret wait_ret fuel (i + 1)
          (if attempt_succeeds connect_ret wait_ret i then 1 else 0)
          (calls ++ attempt_calls connect_ret wait_ret i) := by
  by_cases c : connect_ret i ≥ 0 <;> by_cases w : wait_ret i ≥ 0 <;>
    simp [link_loop, attempt_calls, attempt_succeeds, hi, c, w]

theorem link_loop_eq (connect_ret wait_ret : Nat → Int) (f : Nat) :
    link_loop connect_ret wait_ret (f + 4) 1 0 []
      = some (if attempt_succeeds connect_ret wait_ret (attempts_made connect_ret wait_ret)
                then 1 else 0,
              policy_calls connect_ret wait_ret (attempts_made connect_ret wait_ret)) := by
  rw [link_loop_attempt connect_ret wait_ret (f + 3) 1 [] (by omega)]
  by_cases s1 : attempt_succeeds connect_ret wait_ret 1 = true
  · simp [s1, link_loop_done, attempts_made, policy_calls]
  · rw [if_neg s1, link_loop_attempt connect_ret wait_ret (f + 2) 2 _ (by omega)]
    by_cases s2 : attempt_succeeds connect_ret wait_ret 2 = true
    · simp [s1, s2, link_loop_done, attempts_made, policy_calls]
    · rw [if_neg s2, link_loop_attempt connect_ret wait_ret (f + 1) 3 _ (by omega)]
      by_cases s3 : attempt_succeeds connect_ret wait_ret 3 = true
      · simp [s1, s2, s3, link_loop_done, attempts_made, policy_calls]
      · rw [if_neg s3, link_loop_exhausted connect_ret wait_ret f 4 _ (by omega)]
        simp [s1, s2, s3, attempts_made, policy_calls]

theorem policy_calls_connects (connect_ret wait_ret : Nat → Int) (n : Nat) :
    ((policy_calls connect_ret wait_ret n).filter MainCall.is_connect).length = n := by
  induction n with
  | zero => simp [policy_calls]
  | succ n ih =>
    by_cases c : connect_ret (n + 1) ≥ 0 <;> by_cases w : wait_ret (n + 1) ≥ 0 <;>
      simp [policy_calls, attempt_calls, attempt_succeeds, List.filter_append, ih, c, w,
        MainCall.is_connect, List.filter]

theorem policy_calls_wait (connect_ret wait_ret : Nat → Int) (n i : Nat)
    (h : MainCall.wait_for_wifi_connection i ∈ policy_calls connect_ret wait_ret n) :
    connect_ret i ≥ 0 := by
  induction n with
  | zero => simp [policy_calls] at h
  | succ n ih =>
    simp only [policy_calls, List.mem_append] at h
    rcases h with h | h
    · exact ih h
    · by_cases c : connect_ret (n + 1) ≥ 0
      · by_cases hi : i = n + 1
        · rw [hi]; exact c
        · exfalso
          by_cases w : wait_ret (n + 1) ≥ 0 <;>
            simp [attempt_calls, attempt_succeeds, c, w] at h <;> exact hi h
      · exfalso
        simp [attempt_calls, attempt_succeeds, c] at h

theorem policy_calls_disconnects (connect_ret wait_ret : Nat → Int) (n : Nat) :
    (policy_calls connect_ret wait_ret n).count MainCall.wifi_disconnect
        = failed_attempts connect_ret wait_ret n
    ∧ (policy_calls connect_ret wait_ret n).count (MainCall.k_sleep 2000)
        = failed_attempts connect_ret wait_ret n := by
  induction n with
  | zero => simp [policy_calls, failed_attempts]
  | succ n ih =>
    by_cases c : connect_ret (n + 1) ≥ 0 <;> by_cases w : wait_ret (n + 1) ≥ 0 <;>
      simp [policy_calls, failed_attempts, attempt_calls, attempt_succeeds, List.count_append,
        List.count_cons, ih.1, ih.2, c, w]

theorem attempts_made_le (connect_ret wait_ret : Nat → Int) :
    1 ≤ attempts_made connect_ret wait_ret ∧ attempts_made connect_ret wait_ret ≤ 3 := by
  unfold attempts_made
  split
  · omega
  · split <;> omega

theorem attempts_made_first (connect_ret wait_ret : Nat → Int) (i : Nat) (h1 : 1 ≤ i)
    (h2 : i < attempts_made connect_ret wait_ret) :
    attempt_succeeds connect_ret wait_ret i = false := by
  unfold attempts_made at h2
  split at h2
  · omega
  · rename_i s1
    split at h2
    · have : i = 1 := by omega
      subst this
      simpa using s1
    · rename_i s2
      have : i = 1 ∨ i = 2 := by omega
      rcases this with rfl | rfl
      · simpa using s1
      · simpa using s2

/-- C3: for every assignment of outcomes to `connect_to_wifi` and
`wait_for_wifi_connection`, the loop of `main` ends (fuel 4 is enough) having
made exactly the calls of attempts `1..n` of the retry policy, where `n` is the
index of the first successful attempt if that is at most 3 and 3 otherwise (no
attempt before the `n`-th succeeds); `wifi_ok` is 1 iff one of those attempts
succeeded, and 0 otherwise; there are `n <= 3` connect requests; the wait of
attempt `i` is called only when the connect request of attempt `i` returned
`>= 0`; and a disconnect request followed by the 2000 ms sleep is issued once
per failed attempt and not after the successful one. -/
theorem link_loop_policy (connect_ret wait_ret : Nat → Int) (fuel : Nat) (hfuel : 4 ≤ fuel) :
    ∃ wifi_ok calls,
      link_loop connect_ret wait_ret fuel 1 0 [] = some (wifi_ok, calls)
      ∧ calls = policy_calls connect_ret wait_ret (attempts_made connect_ret wait_ret)
      ∧ 1 ≤ attempts_made connect_ret wait_ret ∧ attempts_made connect_ret wait_ret ≤ 3
      ∧ (∀ i, 1 ≤ i → i < attempts_made connect_ret wait_ret →
            attempt_succeeds connect_ret wait_ret i = false)
      ∧ (attempts_made connect_ret wait_ret < 3 →
            attempt_succeeds connect_ret wait_ret (attempts_made connect_ret wait_ret) = true)
      ∧ (wifi_ok = 1 ∨ wifi_ok = 0)
      ∧ (wifi_ok = 1 ↔ ∃ i, 1 ≤ i ∧ i ≤ attempts_made connect_ret wait_ret
            ∧ attempt_succeeds connect_ret wait_ret i = true)
      ∧ (calls.filter MainCall.is_connect).length = attempts_made connect_ret wait_ret
      ∧ (∀ i, MainCall.wait_for_wifi_connection i ∈ calls → connect_ret i ≥ 0)
      ∧ calls.count MainCall.wifi_disconnect
          = failed_attempts connect_ret wait_ret (attempts_made connect_ret wait_ret)
      ∧ calls.count (MainCall.k_sleep 2000)
          = failed_attempts connect_ret wait_ret (attempts_made connect_ret wait_ret)
      ∧ (∀ i, attempt_calls connect_ret wait_ret i
          = [MainCall.connect_to_wifi i]
            ++ (if connect_ret i ≥ 0 then [MainCall.wait_for_wifi_connection i] else [])
            ++ (if connect_ret i ≥ 0 ∧ wait_ret i ≥ 0 then []
                else [MainCall.wifi_disconnect, MainCall.k_sleep 2000])) := by
  obtain ⟨f, rfl⟩ : ∃ f, fuel = f + 4 := ⟨fuel - 4, by omega⟩
  refine ⟨_, _, link_loop_eq connect_ret wait_ret f, rfl, (attempts_made_le _ _).1,
    (attempts_made_le _ _).2, attempts_made_first connect_ret wait_ret, ?_, ?_, ?_,
    policy_calls_connects _ _ _, fun i h => policy_calls_wait _ _ _ i h,
    (policy_calls_disconnects _ _ _).1, (policy_calls_disconnects _ _ _).2, ?_⟩
  · intro h
    unfold attempts_made at h ⊢
    split
    · assumption
    · rename_i s1
      rw [if_neg s1] at h
      split
      · assumption
      · rename_i s2
        rw [if_neg s2] at h
        omega
  · by_cases h : attempt_succeeds connect_ret wait_ret (attempts_made connect_ret wait_ret) = true
    · left; simp [h]
    · right; simp [h]
  · constructor
    · intro h
      refine ⟨attempts_made connect_ret wait_ret, (attempts_made_le _ _).1, le_refl _, ?_⟩
      by_contra hs
      simp [hs] at h
    · rintro ⟨i, h1, h2, hs⟩
      have hi : i = attempts_made connect_ret wait_ret := by
        by_contra hne
        have := attempts_made_first connect_ret wait_ret i h1 (by omega)
        rw [this] at hs
        exact Bool.noConfusion hs
      rw [← hi, hs]
      simp
  · intro i
    by_cases c : connect_ret i ≥ 0 <;> by_cases w : wait_ret i ≥ 0 <;>
      simp [attempt_calls, attempt_succeeds, c, w]

/-- Witness for C3: the connect request is rejected in attempt 1, the wait
times out in attempt 2, and attempt 3 succeeds. -/
theorem link_loop_policy_witness :
    ∃ wifi_ok calls,
      link_loop (fun i => if i = 1 then -19 else 0) (fun i => if i = 3 then 0 else -116) 4 1 0 []
        = some (wifi_ok, calls)
      ∧ wifi_ok = 1
      ∧ calls = [MainCall.connect_to_wifi 1, MainCall.wifi_disconnect, MainCall.k_sleep 2000,
                 MainCall.connect_to_wifi 2, MainCall.wait_for_wifi_connection 2,
                 MainCall.wifi_disconnect, MainCall.k_sleep 2000,
                 MainCall.connect_to_wifi 3, MainCall.wait_for_wifi_connection 3] := by
  obtain ⟨ok, calls, hrun, hcalls, _, _, _, _, _, hok, _⟩ :=
    link_loop_policy (fun i => if i = 1 then -19 else 0) (fun i => if i = 3 then 0 else -116)
      4 (le_refl 4)
  refine ⟨ok, calls, hrun, ?_, ?_⟩
  · rw [hok]
    exact ⟨3, by decide, by decide, by decide⟩
  · rw [hcalls]
    decide

/-! ## Theorems: the wait loop of `run_coap_test` -/

theorem wait_ms_step (w : Nat) (r : Int) (hw : w ≤ 5000) (h1 : 1 ≤ r) (h2 : r ≤ 500) :
    u32 (w + 2 ^ 32 - (if r < int_of_unsigned w then unsigned_of_int r else w))
      = w - min r.toNat w := by
  have hw31 : w < 2 ^ 31 := by omega
  have hi : int_of_unsigned w = (w : Int) := by
    unfold int_of_unsigned
    rw [if_pos hw31]
  have hu : unsigned_of_int r = r.toNat := by
    unfold unsigned_of_int
    rw [Int.emod_eq_of_lt (by omega) (by omega)]
  rw [hi, hu]
  unfold u32
  by_cases hlt : r < (w : Int)
  · rw [if_pos hlt]
    have : min r.toNat w = r.toNat := by
      apply Nat.min_eq_left
      omega
    rw [this]
    omega
  · rw [if_neg hlt]
    have : min r.toNat w = w := by
      apply Nat.min_eq_right
      omega
    rw [this]
    omega

theorem coap_wait_loop_silent (io_process : Nat → Int) (response : Nat → Bool)
    (hio : ∀ k, 1 ≤ io_process k ∧ io_process k ≤ 500) (hresp : ∀ k, response k = false) :
    ∀ w p fuel : Nat, 0 < w → w ≤ 5000 → w < fuel →
      ∃ n, p < n ∧ n ≤ p + w
        ∧ coap_wait_loop io_process response fuel 0 w p = some (0, 0, n)
        ∧ (w : Int) ≤ elapsed_sum io_process n - elapsed_sum io_process p
        ∧ elapsed_sum io_process n - elapsed_sum io_process p < (w : Int) + 500 := by
  intro w
  induction w using Nat.strong_induction_on with
  | _ w ih =>
    intro p fuel hpos hle hfuel
    obtain ⟨f, rfl⟩ : ∃ f, fuel = f + 1 := ⟨fuel - 1, by omega⟩
    obtain ⟨hr1, hr2⟩ := hio p
    have hstep := wait_ms_step w (io_process p) hle hr1 hr2
    have hunfold : coap_wait_loop io_process response (f + 1) 0 w p
        = coap_wait_loop io_process response f 0 (w - min (io_process p).toNat w) (p + 1) := by
      have hge : io_process p ≥ 0 := by omega
      simp only [coap_wait_loop, hresp p, true_and, gt_iff_lt, hpos, if_true, hge,
        Bool.false_eq_true, if_false]
      rw [hstep]
    by_cases hlt : (io_process p).toNat < w
    · have hmin : min (io_process p).toNat w = (io_process p).toNat := Nat.min_eq_left (by omega)
      obtain ⟨n, hn1, hn2, hrun, hs1, hs2⟩ :=
        ih (w - (io_process p).toNat) (by omega) (p + 1) f (by omega) (by omega) (by omega)
      refine ⟨n, by omega, by omega, ?_, ?_, ?_⟩
      · rw [hunfold, hmin, hrun]
      · simp only [elapsed_sum] at hs1
        omega
      · simp only [elapsed_sum] at hs2
        omega
    · have hmin : min (io_process p).toNat w = w := Nat.min_eq_right (by omega)
      obtain ⟨g, rfl⟩ : ∃ g, f = g + 1 := ⟨f - 1, by omega⟩
      refine ⟨p + 1, by omega, by omega, ?_, ?_, ?_⟩
      · rw [hunfold, hmin]
        simp [coap_wait_loop]
      · simp only [elapsed_sum]
        omega
      · simp only [elapsed_sum]
        omega

theorem elapsed_sum_le (io_process : Nat → Int) (hio : ∀ k, io_process k ≤ 500) (n : Nat) :
    elapsed_sum io_process n ≤ 500 * (n : Int) := by
  induction n with
  | zero => simp [elapsed_sum]
  | succ n ih =>
    have := hio n
    simp only [elapsed_sum]
    push_cast
    omega

theorem elapsed_sum_const (io_process : Nat → Int) (hio : ∀ k, io_process k = 500) (n : Nat) :
    elapsed_sum io_process n = 500 * (n : Int) := by
  induction n with
  | zero => simp [elapsed_sum]
  | succ n ih =>
    simp only [elapsed_sum, hio n, ih]
    push_cast
    omega

theorem run_coap_test_wait (env : CoapEnv) (st : MainState) (fuel : Nat)
    (hok : env.setup_ok = true) :
    run_coap_test env st fuel
      = (coap_wait_loop env.io_process env.response fuel st.coap_have_response 5000 0).map
          (fun x =>
            { result := if x.1 != 0 then 0 else -1,
              calls := coap_finish (setup_calls env ++ List.replicate x.2.2 CoapCall.coap_io_process)
                env.optlist_set true true,
              ctx := true, session := true, optlist := env.optlist_set, pumps := x.2.2,
              wait_ms := some x.2.1, st := { st with coap_have_response := x.1 } }) := by
  simp only [CoapEnv.setup_ok, Bool.and_eq_true, Bool.not_eq_true', bne_iff_ne, ne_eq,
    beq_iff_eq, decide_eq_true_eq] at hok
  obtain ⟨⟨⟨⟨⟨⟨⟨⟨h1, h2⟩, h3⟩, h4⟩, h5⟩, h6⟩, h7⟩, h8⟩, h9⟩ := hok
  unfold run_coap_test
  cases hopt : env.optlist_set <;>
    simp [h1, h2, h3, h4, h5, h6, h7, h9, hopt, setup_calls] <;>
    (try simp [hopt] at h8) <;>
    (try simp [h8]) <;>
    cases coap_wait_loop env.io_process env.response fuel st.coap_have_response 5000 0 <;>
    simp

/-- C4: in `run_coap_test`, when setup and send succeed, the response flag is
clear on entry and is never set, and every `coap_io_process` call reports an
elapsed time between 1 and 500, the call returns (fuel 5001 is enough) with
result -1, `wait_ms` is exactly 0 at the exit of the loop, the reported times
add up to at least 5000 and less than 5500, between 10 and 5000 pump calls are
made, and exactly 10 when every call reports 500. Each step of the loop
subtracts `min(r, wait_ms)` from the unsigned budget, so it does not wrap. -/
theorem run_coap_test_timeout (env : CoapEnv) (st : MainState) (fuel : Nat)
    (hok : env.setup_ok = true) (hflag : st.coap_have_response = 0)
    (hresp : ∀ k, env.response k = false)
    (hio : ∀ k, 1 ≤ env.io_process k ∧ env.io_process k ≤ 500) (hfuel : 5001 ≤ fuel) :
    (∃ r, run_coap_test env st fuel = some r
      ∧ r.result = -1 ∧ r.wait_ms = some 0
      ∧ 5000 ≤ elapsed_sum env.io_process r.pumps
      ∧ elapsed_sum env.io_process r.pumps < 5500
      ∧ 10 ≤ r.pumps ∧ r.pumps ≤ 5000
      ∧ ((∀ k, env.io_process k = 500) → r.pumps = 10))
    ∧ (∀ (w : Nat) (k : Nat), w ≤ 5000 →
        u32 (w + 2 ^ 32 - (if env.io_process k < int_of_unsigned w
              then unsigned_of_int (env.io_process k) else w))
          = w - min (env.io_process k).toNat w) := by
  constructor
  · obtain ⟨n, _, hn, hrun, hs1, hs2⟩ :=
      coap_wait_loop_silent env.io_process env.response hio hresp 5000 0 fuel
        (by omega) (by omega) (by omega)
    have hz : elapsed_sum env.io_process 0 = 0 := rfl
    rw [hz] at hs1 hs2
    have hle := elapsed_sum_le env.io_process (fun k => (hio k).2) n
    refine ⟨_, by rw [run_coap_test_wait env st fuel hok, hflag, hrun]; rfl, ?_, rfl, ?_, ?_,
      ?_, ?_, ?_⟩
    · simp
    · simpa using hs1
    · simpa using hs2
    · show 10 ≤ n
      omega
    · show n ≤ 5000
      omega
    · intro hconst
      show n = 10
      have := elapsed_sum_const env.io_process hconst n
      omega
  · intro w k hw
    exact wait_ms_step w (env.io_process k) hw (hio k).1 (hio k).2

/-- Witness for C4: a destination that never responds, with every pump call
reporting 500 ms, gives exactly 10 pump calls. -/
theorem run_coap_test_timeout_witness :
    ∃ r, run_coap_test (CoapEnv.exchange 500 (fun _ => false)) MainState.startup 5001 = some r
      ∧ r.result = -1 ∧ r.wait_ms = some 0 ∧ r.pumps = 10 := by
  obtain ⟨⟨r, hrun, hres, hw, _, _, _, _, hten⟩, _⟩ :=
    run_coap_test_timeout (CoapEnv.exchange 500 (fun _ => false)) MainState.startup 5001
      (by decide) rfl (fun _ => rfl) (fun _ => ⟨(by decide : (1 : Int) ≤ 500), (by decide : (500 : Int) ≤ 500)⟩) (le_refl _)
  exact ⟨r, hrun, hres, hw, hten (fun _ => rfl)⟩


/-! ## Theorems: the response flag across calls of `run_coap_test` -/

theorem coap_wait_loop_flag (io_process : Nat → Int) (response : Nat → Bool) :
    ∀ (fuel : Nat) (h : Int) (w p : Nat) (h' : Int) (w' n : Nat),
      coap_wait_loop io_process response fuel h w p = some (h', w', n) →
      p ≤ n ∧ (h' ≠ 0 ↔ (h ≠ 0 ∨ ∃ k, p ≤ k ∧ k < n ∧ response k = true))
        ∧ (h ≠ 0 → h' = h ∧ w' = w ∧ n = p) := by
  intro fuel
  induction fuel with
  | zero =>
    intro h w p h' w' n hrun
    simp [coap_wait_loop] at hrun
  | succ f ih =>
    intro h w p h' w' n hrun
    by_cases hcond : h = 0 ∧ w > 0
    · rw [coap_wait_loop, if_pos hcond] at hrun
      have hz := hcond.1
      subst hz
      obtain ⟨hn, hiff, _⟩ := ih _ _ _ _ _ _ hrun
      refine ⟨by omega, ?_, fun hne => absurd rfl hne⟩
      rw [hiff]
      constructor
      · rintro (hne | ⟨k, hk1, hk2, hk3⟩)
        · right
          refine ⟨p, le_refl p, by omega, ?_⟩
          by_contra hp
          simp [hp] at hne
        · exact Or.inr ⟨k, by omega, hk2, hk3⟩
      · rintro (hne | ⟨k, hk1, hk2, hk3⟩)
        · exact absurd rfl hne
        · by_cases hkp : k = p
          · left
            subst hkp
            simp [hk3, coap_response_handler]
          · exact Or.inr ⟨k, by omega, hk2, hk3⟩
    · rw [coap_wait_loop, if_neg hcond] at hrun
      simp only [Option.some.injEq, Prod.mk.injEq] at hrun
      obtain ⟨rfl, rfl, rfl⟩ := hrun
      refine ⟨le_refl _, ?_, fun _ => ⟨rfl, rfl, rfl⟩⟩
      constructor
      · intro hne
        exact Or.inl hne
      · rintro (hne | ⟨k, hk1, hk2, _⟩)
        · exact hne
        · omega

theorem run_coap_test_setup_failure (env : CoapEnv) (st : MainState) (fuel : Nat)
    (h : env.setup_ok = false) :
    ∃ pre, run_coap_test env st fuel
        = some (coap_early st (-1) pre (acquired_optlist env pre) (acquired_session env pre)
            (acquired_ctx env pre))
      ∧ (∀ c ∈ pre, CoapCall.is_release c = false)
      ∧ CoapCall.coap_cleanup ∉ pre := by
  by_cases a1 : env.split_uri_ret = 0
  swap
  · exact ⟨[.coap_startup, .coap_split_uri],
      by simp [run_coap_test, a1, acquired_optlist, acquired_session, acquired_ctx],
      by simp [CoapCall.is_release], by simp⟩
  by_cases a2 : env.host_length < 64
  swap
  · exact ⟨[.coap_startup, .coap_split_uri],
      by simp [run_coap_test, a1, a2, acquired_optlist, acquired_session, acquired_ctx],
      by simp [CoapCall.is_release], by simp⟩
  by_cases a3 : env.inet_pton_ret ≤ 0
  · exact ⟨[.coap_startup, .coap_split_uri],
      by simp [run_coap_test, setup_coap_address, a1, a2, a3, acquired_optlist,
        acquired_session, acquired_ctx],
      by simp [CoapCall.is_release], by simp⟩
  by_cases a4 : env.new_context = true
  swap
  · exact ⟨[.coap_startup, .coap_split_uri, .coap_new_context],
      by simp [run_coap_test, setup_coap_address, a1, a2, a3, a4, acquired_optlist,
        acquired_session, acquired_ctx],
      by simp [CoapCall.is_release], by simp⟩
  by_cases a5 : env.new_client_session = true
  swap
  · exact ⟨[.coap_startup, .coap_split_uri, .coap_new_context, .coap_context_set_block_mode,
        .coap_new_client_session],
      by simp [run_coap_test, setup_coap_address, a1, a2, a3, a4, a5, acquired_optlist,
        acquired_session, acquired_ctx],
      by simp [CoapCall.is_release], by simp⟩
  by_cases a6 : env.pdu_init = true
  swap
  · exact ⟨[.coap_startup, .coap_split_uri, .coap_new_context, .coap_context_set_block_mode,
        .coap_new_client_session, .coap_register_response_handler, .coap_pdu_init],
      by simp [run_coap_test, setup_coap_address, a1, a2, a3, a4, a5, a6, acquired_optlist,
        acquired_session, acquired_ctx],
      by simp [CoapCall.is_release], by simp⟩
  by_cases a7 : env.uri_into_options_ret = 0
  swap
  · exact ⟨[.coap_startup, .coap_split_uri, .coap_new_context, .coap_context_set_block_mode,
        .coap_new_client_session, .coap_register_response_handler, .coap_pdu_init,
        .coap_uri_into_options],
      by simp [run_coap_test, setup_coap_address, a1, a2, a3, a4, a5, a6, a7, acquired_optlist,
        acquired_session, acquired_ctx],
      by simp [CoapCall.is_release], by simp⟩
  by_cases a8 : env.optlist_set = true ∧ env.add_optlist_pdu_ret = 0
  · exact ⟨[.coap_startup, .coap_split_uri, .coap_new_context, .coap_context_set_block_mode,
        .coap_new_client_session, .coap_register_response_handler, .coap_pdu_init,
        .coap_uri_into_options, .coap_add_optlist_pdu],
      by simp [run_coap_test, setup_coap_address, a1, a2, a3, a4, a5, a6, a7, a8.1, a8.2,
        acquired_optlist, acquired_session, acquired_ctx],
      by simp [CoapCall.is_release], by simp⟩
  by_cases a9 : env.send_mid = COAP_INVALID_MID
  · refine ⟨setup_calls env, ?_, ?_, ?_⟩
    · cases hopt : env.optlist_set
      · simp [run_coap_test, setup_coap_address, a1, a2, a3, a4, a5, a6, a7, a9, hopt,
          acquired_optlist, acquired_session, acquired_ctx, setup_calls]
      · have hadd : ¬ env.add_optlist_pdu_ret = 0 := fun hz => a8 ⟨hopt, hz⟩
        simp [run_coap_test, setup_coap_address, a1, a2, a3, a4, a5, a6, a7, a9, hopt, hadd,
          acquired_optlist, acquired_session, acquired_ctx, setup_calls]
    · cases hopt : env.optlist_set <;> simp [setup_calls, CoapCall.is_release, hopt]
    · cases hopt : env.optlist_set <;> simp [setup_calls, hopt]
  · exfalso
    have : env.setup_ok = true := by
      simp only [CoapEnv.setup_ok, Bool.and_eq_true, Bool.not_eq_true', bne_iff_ne, ne_eq,
        beq_iff_eq, decide_eq_true_eq]
      refine ⟨⟨⟨⟨⟨⟨⟨⟨a1, a2⟩, ?_⟩, a4⟩, a5⟩, a6⟩, a7⟩, ?_⟩, a9⟩
      · simp [setup_coap_address, a3]
      · cases hopt : env.optlist_set
        · simp
        · have hadd : ¬ env.add_optlist_pdu_ret = 0 := fun hz => a8 ⟨hopt, hz⟩
          simp [hadd]
    rw [this] at h
    exact Bool.noConfusion h

theorem run_coap_test_success_flag (env : CoapEnv) (st : MainState) (fuel : Nat) (r : CoapRun)
    (hrun : run_coap_test env st fuel = some r) (hres : r.result = 0) :
    r.st.coap_have_response ≠ 0 := by
  by_cases hok : env.setup_ok = true
  · rw [run_coap_test_wait env st fuel hok] at hrun
    cases hloop : coap_wait_loop env.io_process env.response fuel st.coap_have_response 5000 0 with
    | none => simp [hloop] at hrun
    | some x =>
      simp only [hloop, Option.map_some', Option.some.injEq] at hrun
      subst hrun
      intro hz
      simp only at hz
      simp [hz] at hres
  · obtain ⟨pre, hearly, _⟩ := run_coap_test_setup_failure env st fuel (by simpa using hok)
    rw [hearly] at hrun
    simp only [Option.some.injEq] at hrun
    subst hrun
    simp [coap_early] at hres

theorem run_coap_test_flag_set (env : CoapEnv) (st : MainState) (fuel : Nat)
    (hok : env.setup_ok = true) (hflag : st.coap_have_response ≠ 0) (hfuel : 1 ≤ fuel) :
    ∃ r, run_coap_test env st fuel = some r ∧ r.result = 0 ∧ r.pumps = 0
      ∧ r.wait_ms = some 5000 ∧ r.st = st := by
  obtain ⟨f, rfl⟩ : ∃ f, fuel = f + 1 := ⟨fuel - 1, by omega⟩
  have hloop : coap_wait_loop env.io_process env.response (f + 1) st.coap_have_response 5000 0
      = some (st.coap_have_response, 5000, 0) := by
    simp [coap_wait_loop, hflag]
  rw [run_coap_test_wait env st (f + 1) hok, hloop]
  exact ⟨_, rfl, by simp [hflag], rfl, rfl, rfl⟩

/-- C5 as stated fails: a first call whose destination answers during the
first pump call returns 0; a second call whose destination never answers then
returns 0 as well, without a single pump call, although the same second call
made with the flag clear returns -1 after 10 pump calls. -/
theorem run_coap_test_second_call_counterexample :
    (run_coap_test (CoapEnv.exchange 500 (fun k => decide (k = 0))) MainState.startup 5001).map
        (fun r1 => r1.result) = some 0
    ∧ ((run_coap_test (CoapEnv.exchange 500 (fun k => decide (k = 0))) MainState.startup 5001).bind
        (fun r1 => run_coap_test (CoapEnv.exchange 500 (fun _ => false)) r1.st 5001)).map
        (fun r2 => (r2.result, r2.pumps)) = some (0, 0)
    ∧ (run_coap_test (CoapEnv.exchange 500 (fun _ => false)) MainState.startup 5001).map
        (fun r3 => (r3.result, r3.pumps)) = some (-1, 10) := by
  refine ⟨?_, ?_, ?_⟩
  · decide
  · decide
  · decide

/-- C5 (amended): `coap_have_response` is never cleared. A call that returns 0
leaves it nonzero, so a following call whose setup and send succeed returns 0
without any pump call, whatever its destination does. Only for a call entered
with the flag clear, and whose setup and send succeed, does the outcome depend
on that call alone: it returns 0 iff the response callback fired during one of
its pump calls. -/
theorem run_coap_test_second_call (env1 env2 : CoapEnv) (st : MainState) (fuel1 fuel2 : Nat)
    (r1 : CoapRun) (hrun : run_coap_test env1 st fuel1 = some r1) :
    (r1.result = 0 → env2.setup_ok = true → 1 ≤ fuel2 →
      r1.st.coap_have_response ≠ 0
      ∧ ∃ r2, run_coap_test env2 r1.st fuel2 = some r2 ∧ r2.result = 0 ∧ r2.pumps = 0)
    ∧ (st.coap_have_response = 0 → env1.setup_ok = true →
        (r1.result = 0 ↔ ∃ k, k < r1.pumps ∧ env1.response k = true)) := by
  constructor
  · intro hres hok hfuel
    have hflag := run_coap_test_success_flag env1 st fuel1 r1 hrun hres
    obtain ⟨r2, h2, hres2, hp2, _⟩ := run_coap_test_flag_set env2 r1.st fuel2 hok hflag hfuel
    exact ⟨hflag, r2, h2, hres2, hp2⟩
  · intro hflag hok
    rw [run_coap_test_wait env1 st fuel1 hok] at hrun
    cases hloop : coap_wait_loop env1.io_process env1.response fuel1 st.coap_have_response
        5000 0 with
    | none => simp [hloop] at hrun
    | some x =>
      obtain ⟨h', w', n⟩ := x
      simp only [hloop, Option.map_some', Option.some.injEq] at hrun
      subst hrun
      obtain ⟨_, hiff, _⟩ := coap_wait_loop_flag _ _ _ _ _ _ _ _ _ hloop
      simp only [hflag, ne_eq, not_true_eq_false, false_or, zero_le, true_and] at hiff
      simp only [bne_iff_ne, ne_eq, ite_not]
      rw [← hiff]
      by_cases hz : h' = 0 <;> simp [hz]

/-- Witness for C5 (amended): the second of two calls, after a first one that
was answered during its first pump call. -/
theorem run_coap_test_second_call_witness :
    ∃ r1 r2,
      run_coap_test (CoapEnv.exchange 500 (fun k => decide (k = 0))) MainState.startup 5001
        = some r1
      ∧ r1.result = 0
      ∧ run_coap_test (CoapEnv.exchange 500 (fun _ => false)) r1.st 5001 = some r2
      ∧ r2.result = 0 ∧ r2.pumps = 0 := by
  obtain ⟨r1, hr1, hres1⟩ : ∃ r1,
      run_coap_test (CoapEnv.exchange 500 (fun k => decide (k = 0))) MainState.startup 5001
        = some r1 ∧ r1.result = 0 := by
    cases hr : run_coap_test (CoapEnv.exchange 500 (fun k => decide (k = 0)))
        MainState.startup 5001 with
    | none =>
      have hmap : (run_coap_test (CoapEnv.exchange 500 (fun k => decide (k = 0)))
          MainState.startup 5001).map (fun r1 => r1.result) = some 0 := by decide
      rw [hr] at hmap
      exact Option.noConfusion hmap
    | some r =>
      have hmap : (run_coap_test (CoapEnv.exchange 500 (fun k => decide (k = 0)))
          MainState.startup 5001).map (fun r1 => r1.result) = some 0 := by decide
      rw [hr] at hmap
      exact ⟨r, rfl, by simpa using hmap⟩
  obtain ⟨_, r2, hr2, hres2, hp2⟩ :=
    (run_coap_test_second_call (CoapEnv.exchange 500 (fun k => decide (k = 0)))
      (CoapEnv.exchange 500 (fun _ => false)) MainState.startup 5001 5001 r1 hr1).1
      hres1 (by decide) (by decide)
  exact ⟨r1, r2, hr1, hres1, hr2, hres2, hp2⟩


/-! ## Theorems: resource release in `run_coap_test` -/

theorem finish_shape (env : CoapEnv) (pre : List CoapCall)
    (hpre : ∀ c ∈ pre, CoapCall.is_release c = false) (hclean : CoapCall.coap_cleanup ∉ pre) :
    coap_finish pre (acquired_optlist env pre) (acquired_session env pre) (acquired_ctx env pre)
        = pre ++ expected_releases env pre ++ [CoapCall.coap_cleanup]
    ∧ (coap_finish pre (acquired_optlist env pre) (acquired_session env pre)
          (acquired_ctx env pre)).count CoapCall.coap_delete_optlist
        = (if acquired_optlist env pre then 1 else 0)
    ∧ (coap_finish pre (acquired_optlist env pre) (acquired_session env pre)
          (acquired_ctx env pre)).count CoapCall.coap_session_release
        = (if acquired_session env pre then 1 else 0)
    ∧ (coap_finish pre (acquired_optlist env pre) (acquired_session env pre)
          (acquired_ctx env pre)).count CoapCall.coap_free_context
        = (if acquired_ctx env pre then 1 else 0)
    ∧ (coap_finish pre (acquired_optlist env pre) (acquired_session env pre)
          (acquired_ctx env pre)).count CoapCall.coap_cleanup = 1 := by
  have h1 : pre.count CoapCall.coap_delete_optlist = 0 :=
    List.count_eq_zero.mpr (fun hm => by simpa [CoapCall.is_release] using hpre _ hm)
  have h2 : pre.count CoapCall.coap_session_release = 0 :=
    List.count_eq_zero.mpr (fun hm => by simpa [CoapCall.is_release] using hpre _ hm)
  have h3 : pre.count CoapCall.coap_free_context = 0 :=
    List.count_eq_zero.mpr (fun hm => by simpa [CoapCall.is_release] using hpre _ hm)
  have h4 : pre.count CoapCall.coap_cleanup = 0 := List.count_eq_zero.mpr hclean
  refine ⟨by simp [coap_finish, expected_releases], ?_, ?_, ?_, ?_⟩ <;>
    cases acquired_optlist env pre <;> cases acquired_session env pre <;>
    cases acquired_ctx env pre <;>
    simp [coap_finish, List.count_append, List.count_cons, h1, h2, h3, h4]

theorem setup_calls_facts (env : CoapEnv) (n : Nat) (hok : env.setup_ok = true) :
    (∀ c ∈ setup_calls env ++ List.replicate n CoapCall.coap_io_process,
        CoapCall.is_release c = false)
    ∧ CoapCall.coap_cleanup ∉ setup_calls env ++ List.replicate n CoapCall.coap_io_process
    ∧ acquired_optlist env (setup_calls env ++ List.replicate n CoapCall.coap_io_process)
        = env.optlist_set
    ∧ acquired_session env (setup_calls env ++ List.replicate n CoapCall.coap_io_process) = true
    ∧ acquired_ctx env (setup_calls env ++ List.replicate n CoapCall.coap_io_process) = true := by
  simp only [CoapEnv.setup_ok, Bool.and_eq_true, Bool.not_eq_true', bne_iff_ne, ne_eq,
    beq_iff_eq, decide_eq_true_eq] at hok
  obtain ⟨⟨⟨⟨⟨⟨⟨⟨_, _⟩, _⟩, h4⟩, h5⟩, _⟩, _⟩, _⟩, _⟩ := hok
  refine ⟨?_, ?_, ?_, ?_, ?_⟩
  · intro c hc
    simp only [List.mem_append, List.mem_replicate] at hc
    rcases hc with hc | ⟨_, rfl⟩
    · cases hopt : env.optlist_set <;> simp [setup_calls, hopt] at hc <;>
        rcases hc with rfl | rfl | rfl | rfl | rfl | rfl | rfl | rfl | hc <;>
        first | rfl | (rcases hc with rfl | rfl <;> rfl)
    · rfl
  · cases hopt : env.optlist_set <;> simp [setup_calls, hopt]
  · cases hopt : env.optlist_set <;> simp [acquired_optlist, setup_calls, hopt]
  · cases hopt : env.optlist_set <;> simp [acquired_session, setup_calls, hopt, h5]
  · cases hopt : env.optlist_set <;> simp [acquired_ctx, setup_calls, hopt, h4]

/-- C6: whatever the steps of `run_coap_test` do, when the function returns
its libcoap calls are some calls `pre` that release nothing, then the release
of the options list, of the session and of the context, in this order and each
exactly when `pre` acquired it, then `coap_cleanup`; so every acquired resource
is released exactly once and nothing else is released. Every setup or send
failure returns -1 (for any fuel), and a failed URI parse returns -1 after the
calls `coap_startup`, `coap_split_uri`, `coap_cleanup` only: no context and no
session is acquired. -/
theorem run_coap_test_releases (env : CoapEnv) (st : MainState) (fuel : Nat) :
    (∀ r, run_coap_test env st fuel = some r →
      ∃ pre, r.calls = pre ++ expected_releases env pre ++ [CoapCall.coap_cleanup]
        ∧ (∀ c ∈ pre, CoapCall.is_release c = false)
        ∧ r.calls.count CoapCall.coap_delete_optlist = (if acquired_optlist env pre then 1 else 0)
        ∧ r.calls.count CoapCall.coap_session_release
            = (if acquired_session env pre then 1 else 0)
        ∧ r.calls.count CoapCall.coap_free_context = (if acquired_ctx env pre then 1 else 0)
        ∧ r.optlist = acquired_optlist env pre ∧ r.session = acquired_session env pre
        ∧ r.ctx = acquired_ctx env pre)
    ∧ (env.setup_ok = false → ∃ r, run_coap_test env st fuel = some r ∧ r.result = -1)
    ∧ (env.split_uri_ret ≠ 0 → ∃ r, run_coap_test env st fuel = some r ∧ r.result = -1
        ∧ r.calls = [CoapCall.coap_startup, CoapCall.coap_split_uri, CoapCall.coap_cleanup]
        ∧ r.ctx = false ∧ r.session = false ∧ r.optlist = false) := by
  refine ⟨?_, ?_, ?_⟩
  · intro r hrun
    by_cases hok : env.setup_ok = true
    · rw [run_coap_test_wait env st fuel hok] at hrun
      cases hloop : coap_wait_loop env.io_process env.response fuel st.coap_have_response
          5000 0 with
      | none => simp [hloop] at hrun
      | some x =>
        simp only [hloop, Option.map_some', Option.some.injEq] at hrun
        subst hrun
        obtain ⟨f1, f2, f3, f4, f5⟩ := setup_calls_facts env x.2.2 hok
        have hshape := finish_shape env _ f1 f2
        rw [f3, f4, f5] at hshape
        refine ⟨setup_calls env ++ List.replicate x.2.2 CoapCall.coap_io_process, ?_, f1, ?_, ?_,
          ?_, ?_, ?_, ?_⟩
        · rw [← hshape.1]
        · rw [f3]; exact hshape.2.1
        · rw [f4]; exact hshape.2.2.1
        · rw [f5]; exact hshape.2.2.2.1
        · exact f3.symm
        · exact f4.symm
        · exact f5.symm
    · obtain ⟨pre, hearly, hpre, hclean⟩ :=
        run_coap_test_setup_failure env st fuel (by simpa using hok)
      rw [hearly] at hrun
      simp only [Option.some.injEq] at hrun
      subst hrun
      have hshape := finish_shape env pre hpre hclean
      exact ⟨pre, hshape.1, hpre, hshape.2.1, hshape.2.2.1, hshape.2.2.2.1, rfl, rfl, rfl⟩
  · intro hfail
    obtain ⟨pre, hearly, _⟩ := run_coap_test_setup_failure env st fuel hfail
    exact ⟨_, hearly, rfl⟩
  · intro huri
    refine ⟨coap_early st (-1) [CoapCall.coap_startup, CoapCall.coap_split_uri] false false false,
      ?_, rfl, rfl, rfl, rfl, rfl⟩
    simp [run_coap_test, huri]

/-- Witness for C6: the options step fails after the options list was set;
the options list, the session and the context are released in this order. -/
theorem run_coap_test_releases_witness :
    ∃ r, run_coap_test { CoapEnv.exchange 500 (fun _ => false) with uri_into_options_ret := -1 }
          MainState.startup 1 = some r
      ∧ r.result = -1
      ∧ r.calls = [CoapCall.coap_startup, CoapCall.coap_split_uri, CoapCall.coap_new_context,
          CoapCall.coap_context_set_block_mode, CoapCall.coap_new_client_session,
          CoapCall.coap_register_response_handler, CoapCall.coap_pdu_init,
          CoapCall.coap_uri_into_options, CoapCall.coap_delete_optlist,
          CoapCall.coap_session_release, CoapCall.coap_free_context, CoapCall.coap_cleanup] := by
  obtain ⟨r, hrun, hres⟩ :=
    (run_coap_test_releases { CoapEnv.exchange 500 (fun _ => false) with
      uri_into_options_ret := -1 } MainState.startup 1).2.1 (by decide)
  refine ⟨r, hrun, hres, ?_⟩
  have hcalls : (run_coap_test { CoapEnv.exchange 500 (fun _ => false) with
      uri_into_options_ret := -1 } MainState.startup 1).map (fun x => x.calls)
      = some [CoapCall.coap_startup, CoapCall.coap_split_uri, CoapCall.coap_new_context,
          CoapCall.coap_context_set_block_mode, CoapCall.coap_new_client_session,
          CoapCall.coap_register_response_handler, CoapCall.coap_pdu_init,
          CoapCall.coap_uri_into_options, CoapCall.coap_delete_optlist,
          CoapCall.coap_session_release, CoapCall.coap_free_context, CoapCall.coap_cleanup] := by
    decide
  rw [hrun] at hcalls
  simpa using hcalls


/-! ## Theorems: the entropy tests and the exit code of `main` -/

@[simp] theorem view_add_bytes (st : MainState) (n : Nat) :
    (add_bytes st n).view = st.view := rfl

@[simp] theorem view_add_quantum (st : MainState) (n : Nat) :
    (add_quantum st n).view = st.view := rfl

@[simp] theorem view_pass_test (st : MainState) : (pass_test st).view = st.view := rfl

@[simp] theorem view_fail_test (st : MainState) : (fail_test st).view = st.view := rfl

theorem wait_ms_update (w : Nat) (r : Int) (hw : w ≤ 5000) :
    (if r ≥ 0 then
        u32 (w + 2 ^ 32 - (if r < int_of_unsigned w then unsigned_of_int r else w))
      else w) = w - r.toNat := by
  have hw31 : w < 2 ^ 31 := by omega
  have hi : int_of_unsigned w = (w : Int) := by
    unfold int_of_unsigned
    rw [if_pos hw31]
  rw [hi]
  by_cases hr : r ≥ 0
  · rw [if_pos hr]
    unfold u32
    by_cases hlt : r < (w : Int)
    · have hu : unsigned_of_int r = r.toNat := by
        unfold unsigned_of_int
        rw [Int.emod_eq_of_lt (by omega) (by omega)]
      rw [if_pos hlt, hu]
      omega
    · rw [if_neg hlt]
      omega
  · rw [if_neg hr]
    omega

theorem coap_wait_loop_step (io_process : Nat → Int) (response : Nat → Bool) (f w p : Nat)
    (hw : w ≤ 5000) (hpos : 0 < w) :
    coap_wait_loop io_process response (f + 1) 0 w p
      = coap_wait_loop io_process response f (if response p then 1 else 0)
          (w - (io_process p).toNat) (p + 1) := by
  have hupd := wait_ms_update w (io_process p) hw
  simp only [coap_wait_loop, true_and, gt_iff_lt, hpos, if_true, coap_response_handler]
  rw [hupd]

theorem coap_wait_loop_exit (io_process : Nat → Int) (response : Nat → Bool) (f : Nat)
    (h : Int) (w p : Nat) (hex : h ≠ 0 ∨ w = 0) :
    coap_wait_loop io_process response (f + 1) h w p = some (h, w, p) := by
  have hcond : ¬ (h = 0 ∧ w > 0) := by
    rintro ⟨h0, hw⟩
    rcases hex with hne | hz
    · exact hne h0
    · omega
  rw [coap_wait_loop, if_neg hcond]

theorem coap_wait_loop_outcome (io_process : Nat → Int) (response : Nat → Bool) :
    ∀ (fuel : Nat) (h : Int) (w p : Nat) (h' : Int) (w' n : Nat),
      coap_wait_loop io_process response fuel h w p = some (h', w', n) → h' ≠ 0 ∨ w' = 0 := by
  intro fuel
  induction fuel with
  | zero =>
    intro h w p h' w' n hrun
    simp [coap_wait_loop] at hrun
  | succ f ih =>
    intro h w p h' w' n hrun
    by_cases hcond : h = 0 ∧ w > 0
    · rw [coap_wait_loop, if_pos hcond] at hrun
      exact ih _ _ _ _ _ _ hrun
    · rw [coap_wait_loop, if_neg hcond] at hrun
      simp only [Option.some.injEq, Prod.mk.injEq] at hrun
      obtain ⟨rfl, rfl, rfl⟩ := hrun
      by_cases h0 : h = 0
      · right
        by_contra hw
        exact hcond ⟨h0, by omega⟩
      · exact Or.inl h0

theorem consumed_sum_mono (io_process : Nat → Int) (p : Nat) :
    ∀ d, consumed_sum io_process p ≤ consumed_sum io_process (p + d) := by
  intro d
  induction d with
  | zero => exact le_refl _
  | succ d ih =>
    have : consumed_sum io_process (p + (d + 1))
        = consumed_sum io_process (p + d) + (io_process (p + d)).toNat := rfl
    omega

theorem coap_wait_loop_diverges (io_process : Nat → Int) (response : Nat → Bool)
    (hresp : ∀ k, response k = false) :
    ∀ (fuel w p : Nat), w ≤ 5000 →
      (∀ n, consumed_sum io_process n < w + consumed_sum io_process p) →
      coap_wait_loop io_process response fuel 0 w p = none := by
  intro fuel
  induction fuel with
  | zero => intro w p _ _; rfl
  | succ f ih =>
    intro w p hw hsum
    have hpos : 0 < w := by
      have := hsum p
      omega
    rw [coap_wait_loop_step io_process response f w p hw hpos, hresp p]
    have hnext : consumed_sum io_process (p + 1)
        = consumed_sum io_process p + (io_process p).toNat := rfl
    have hlt := hsum (p + 1)
    apply ih (w - (io_process p).toNat) (p + 1) (by omega)
    intro n
    have := hsum n
    omega

theorem coap_wait_loop_terminates (io_process : Nat → Int) (response : Nat → Bool) :
    ∀ (d w p fuel : Nat), w ≤ 5000 →
      ((∃ k, p ≤ k ∧ k < p + d ∧ response k = true)
        ∨ w + consumed_sum io_process p ≤ consumed_sum io_process (p + d)) →
      d < fuel →
      ∃ h' w' n, coap_wait_loop io_process response fuel 0 w p = some (h', w', n)
        ∧ n ≤ p + d := by
  intro d
  induction d with
  | zero =>
    intro w p fuel _ hcond hfuel
    obtain ⟨f, rfl⟩ : ∃ f, fuel = f + 1 := ⟨fuel - 1, by omega⟩
    have hz : w = 0 := by
      rcases hcond with ⟨k, h1, h2, _⟩ | hle
      · omega
      · simpa using hle
    exact ⟨0, w, p, coap_wait_loop_exit io_process response f 0 w p (Or.inr hz), le_refl _⟩
  | succ d ih =>
    intro w p fuel hw hcond hfuel
    obtain ⟨f, rfl⟩ : ∃ f, fuel = f + 1 := ⟨fuel - 1, by omega⟩
    by_cases hz : w = 0
    · exact ⟨0, w, p, coap_wait_loop_exit io_process response f 0 w p (Or.inr hz), by omega⟩
    · rw [coap_wait_loop_step io_process response f w p hw (by omega)]
      by_cases hp : response p = true
      · obtain ⟨g, rfl⟩ : ∃ g, f = g + 1 := ⟨f - 1, by omega⟩
        rw [if_pos hp]
        exact ⟨1, _, p + 1,
          coap_wait_loop_exit io_process response g 1 _ (p + 1) (Or.inl (by decide)), by omega⟩
      · rw [if_neg hp]
        have hnext : consumed_sum io_process (p + 1)
            = consumed_sum io_process p + (io_process p).toNat := rfl
        have hmono := consumed_sum_mono io_process (p + 1) d
        have hidx : p + 1 + d = p + (d + 1) := by omega
        obtain ⟨h', w', n, hrun, hn⟩ := ih (w - (io_process p).toNat) (p + 1) f (by omega)
          (by
            rcases hcond with ⟨k, h1, h2, h3⟩ | hle
            · left
              refine ⟨k, ?_, by omega, h3⟩
              by_contra hlt
              have hk : k = p := by omega
              rw [hk] at h3
              exact hp h3
            · right
              rw [hidx]
              rw [hidx] at hmono
              omega)
          (by omega)
        exact ⟨h', w', n, hrun, by omega⟩

theorem consumed_sum_nonpos (io_process : Nat → Int) (hio : ∀ k, io_process k ≤ 0) (n : Nat) :
    consumed_sum io_process n = 0 := by
  induction n with
  | zero => rfl
  | succ n ih =>
    have := hio n
    simp only [consumed_sum, ih]
    omega

theorem consumed_sum_ge (io_process : Nat → Int) (hio : ∀ k, 1 ≤ io_process k) (n : Nat) :
    n ≤ consumed_sum io_process n := by
  induction n with
  | zero => exact le_refl _
  | succ n ih =>
    have := hio n
    simp only [consumed_sum]
    omega

theorem run_coap_test_diverges (env : CoapEnv) (st : MainState)
    (hok : env.setup_ok = true) (hflag : st.coap_have_response = 0)
    (hresp : ∀ k, env.response k = false)
    (hsum : ∀ n, consumed_sum env.io_process n < 5000) (fuel : Nat) :
    run_coap_test env st fuel = none := by
  rw [run_coap_test_wait env st fuel hok, hflag,
    coap_wait_loop_diverges env.io_process env.response hresp fuel 5000 0 (le_refl _)
      (fun n => by have := hsum n; simpa [consumed_sum] using this)]
  rfl

theorem run_coap_test_returns (env : CoapEnv) (st : MainState)
    (hok : env.setup_ok = true) (hflag : st.coap_have_response = 0) (N fuel : Nat)
    (hcond : (∃ k, k < N ∧ env.response k = true) ∨ 5000 ≤ consumed_sum env.io_process N)
    (hfuel : N < fuel) :
    ∃ r, run_coap_test env st fuel = some r ∧ r.pumps ≤ N := by
  obtain ⟨h', w', n, hrun, hn⟩ :=
    coap_wait_loop_terminates env.io_process env.response N 5000 0 fuel (le_refl _)
      (by
        rcases hcond with ⟨k, h1, h2⟩ | hle
        · exact Or.inl ⟨k, Nat.zero_le k, by omega, h2⟩
        · right
          simpa [consumed_sum] using hle)
      hfuel
  rw [run_coap_test_wait env st fuel hok, hflag, hrun]
  exact ⟨_, rfl, by simpa using hn⟩

/-- C11 as stated fails: when every `coap_io_process` call returns 0, or every
call returns -1, and no response arrives, the wait loop entered with the
budget of 5000 does not end with any amount of fuel, and neither does
`run_coap_test`. -/
theorem run_coap_test_wait_terminates_counterexample :
    (∀ fuel, coap_wait_loop (fun _ => 0) (fun _ => false) fuel 0 5000 0 = none)
    ∧ (∀ fuel, coap_wait_loop (fun _ => -1) (fun _ => false) fuel 0 5000 0 = none)
    ∧ (∀ fuel, run_coap_test (CoapEnv.exchange 0 (fun _ => false)) MainState.startup fuel
        = none)
    ∧ (∀ fuel, run_coap_test (CoapEnv.exchange (-1) (fun _ => false)) MainState.startup fuel
        = none) := by
  have h0 : ∀ n, consumed_sum (fun _ => (0 : Int)) n = 0 :=
    consumed_sum_nonpos _ (fun _ => le_refl _)
  have h1 : ∀ n, consumed_sum (fun _ => (-1 : Int)) n = 0 :=
    consumed_sum_nonpos _ (fun _ => by decide)
  refine ⟨?_, ?_, ?_, ?_⟩
  · intro fuel
    exact coap_wait_loop_diverges _ _ (fun _ => rfl) fuel 5000 0 (le_refl _)
      (fun n => by rw [h0 n, h0 0]; omega)
  · intro fuel
    exact coap_wait_loop_diverges _ _ (fun _ => rfl) fuel 5000 0 (le_refl _)
      (fun n => by rw [h1 n, h1 0]; omega)
  · intro fuel
    exact run_coap_test_diverges _ _ (by decide) rfl (fun _ => rfl)
      (fun n => by
        have : consumed_sum (CoapEnv.exchange 0 (fun _ => false)).io_process n = 0 := h0 n
        omega) fuel
  · intro fuel
    exact run_coap_test_diverges _ _ (by decide) rfl (fun _ => rfl)
      (fun n => by
        have : consumed_sum (CoapEnv.exchange (-1) (fun _ => false)).io_process n = 0 := h1 n
        omega) fuel

/-- C11 (amended): in a `run_coap_test` call whose setup and send succeed and
which is entered with the response flag clear, the wait loop ends after
finitely many pump calls exactly when the response callback fires during some
pump call or the non-negative values returned by `coap_io_process` add up to
at least 5000; it then ends within `N` pump calls as soon as one of the two
has happened within the first `N`, so within 5000 pump calls when every call
returns at least 1. When it ends it resolves to exactly one of Success (flag
set, result 0) and Timeout (flag clear, `wait_ms` 0, result -1). A negative
return leaves the budget as it is and a return of 0 subtracts nothing: with
no response and no positive return the loop does not end. -/
theorem run_coap_test_wait_terminates (env : CoapEnv) (st : MainState)
    (hok : env.setup_ok = true) (hflag : st.coap_have_response = 0) :
    ((∃ fuel r, run_coap_test env st fuel = some r)
      ↔ ((∃ k, env.response k = true) ∨ ∃ n, 5000 ≤ consumed_sum env.io_process n))
    ∧ (∀ N fuel, ((∃ k, k < N ∧ env.response k = true)
          ∨ 5000 ≤ consumed_sum env.io_process N) → N < fuel →
        ∃ r, run_coap_test env st fuel = some r ∧ r.pumps ≤ N)
    ∧ ((∀ k, 1 ≤ env.io_process k) → ∀ fuel, 5000 < fuel →
        ∃ r, run_coap_test env st fuel = some r ∧ r.pumps ≤ 5000)
    ∧ ((∀ k, env.response k = false) → (∀ k, env.io_process k ≤ 0) →
        ∀ fuel, run_coap_test env st fuel = none)
    ∧ (∀ fuel r, run_coap_test env st fuel = some r →
        (r.result = 0 ∧ r.st.coap_have_response ≠ 0)
        ∨ (r.result = -1 ∧ r.st.coap_have_response = 0 ∧ r.wait_ms = some 0)) := by
  refine ⟨⟨?_, ?_⟩, ?_, ?_, ?_, ?_⟩
  · rintro ⟨fuel, r, hrun⟩
    by_contra hnot
    have hresp : ∀ k, env.response k = false := by
      intro k
      by_contra hk
      exact hnot (Or.inl ⟨k, by simpa using hk⟩)
    have hsum : ∀ n, consumed_sum env.io_process n < 5000 := by
      intro n
      by_contra hn
      exact hnot (Or.inr ⟨n, by omega⟩)
    rw [run_coap_test_diverges env st hok hflag hresp hsum fuel] at hrun
    exact Option.noConfusion hrun
  · rintro (⟨k, hk⟩ | ⟨n, hn⟩)
    · obtain ⟨r, hr, _⟩ := run_coap_test_returns env st hok hflag (k + 1) (k + 2)
        (Or.inl ⟨k, by omega, hk⟩) (by omega)
      exact ⟨_, r, hr⟩
    · obtain ⟨r, hr, _⟩ := run_coap_test_returns env st hok hflag n (n + 1) (Or.inr hn)
        (by omega)
      exact ⟨_, r, hr⟩
  · intro N fuel hcond hfuel
    exact run_coap_test_returns env st hok hflag N fuel hcond hfuel
  · intro hio fuel hfuel
    have := consumed_sum_ge env.io_process hio 5000
    exact run_coap_test_returns env st hok hflag 5000 fuel (Or.inr this) hfuel
  · intro hresp hio fuel
    exact run_coap_test_diverges env st hok hflag hresp
      (fun n => by rw [consumed_sum_nonpos env.io_process hio n]; omega) fuel
  · intro fuel r hrun
    rw [run_coap_test_wait env st fuel hok] at hrun
    cases hloop : coap_wait_loop env.io_process env.response fuel st.coap_have_response
        5000 0 with
    | none => simp [hloop] at hrun
    | some x =>
      obtain ⟨h', w', n⟩ := x
      simp only [hloop, Option.map_some', Option.some.injEq] at hrun
      subst hrun
      have hout := coap_wait_loop_outcome _ _ _ _ _ _ _ _ _ hloop
      by_cases hz : h' = 0
      · right
        rcases hout with hne | hw
        · exact absurd hz hne
        · simp [hz, hw]
      · left
        simp [hz]

/-- Witness for C11 (amended): three pump errors, two empty pump calls and
then five calls of 1000 ms each, with no response: the call returns after at
most 10 pump calls, as a Timeout. -/
theorem run_coap_test_wait_terminates_witness :
    ∃ r, run_coap_test CoapEnv.stuttering MainState.startup 11 = some r ∧ r.pumps ≤ 10
      ∧ ((r.result = 0 ∧ r.st.coap_have_response ≠ 0)
        ∨ (r.result = -1 ∧ r.st.coap_have_response = 0 ∧ r.wait_ms = some 0)) := by
  obtain ⟨r, hrun, hp⟩ :=
    (run_coap_test_wait_terminates CoapEnv.stuttering MainState.startup (by decide) rfl).2.1
      10 11 (Or.inr (by decide)) (by decide)
  exact ⟨r, hrun, hp,
    (run_coap_test_wait_terminates CoapEnv.stuttering MainState.startup (by decide)
      rfl).2.2.2.2 11 r hrun⟩

end Qeaas
